import Mathlib

/-!
Verification of the `fg.py` source generator
(`src/vendor/github.com/urfave/cli/v2/altsrc/fg.py`).

The script holds a hard-coded list `flag_types` of flag kind names, prints a
fixed header (package clause and imports), and then, for each kind `t`, prints
one templated block declaring a wrapper type `{t}Flag`, a conformance
assertion, a constructor `New{t}Flag`, and an `Apply` method.

The embedding models the script's standard output as a string buffer:
each `print(s)` appends `s` followed by a newline to the buffer
(`printLine`); the whole script is `runFrom` (header print followed by a
fold of block prints over the kind list), and `generate L` is the script's
output on kind list `L` starting from an empty stream.

The per-kind template is transcribed segment by segment in `blockSegs` —
the concatenation of the segments (`block t`) is exactly the text of the
f-string in the source, with the kind name `t` substituted at each of its
fifteen occurrences.  Keeping the literal text in segments lets substring
facts about `block K` for an arbitrary kind name `K` be proved by list
algebra on the segments.

The `Apply` and constructor bodies of the emitted Go code are additionally
modelled semantically (`FlagWrap`, `NewFlag`, `applyWrap`), translated from
the template text itself: the wrapper holds the wrapped flag and an optional
flag-set handle; `Apply` overwrites the handle and delegates to the wrapped
flag's own `Apply`, returning its result unchanged.
-/

set_option maxRecDepth 8192

namespace FlagGen

/-- The hard-coded kind list of the script (`flag_types` in the source). -/
def flag_types : List String :=
  ["Bool", "Duration", "Float64", "Generic", "Int", "IntSlice", "Path", "String", "StringSlice"]

/-- The fixed header printed before the loop: generated-file warning, package
clause, and the imports of the flag library and of the cli library. -/
def header : String :=
  "// Code generated by fg.py; DO NOT EDIT.\n\npackage altsrc\n\nimport (\n\t\"flag\"\n\n\t\"github.com/urfave/cli/v2\"\n)"

/-- The segments of the per-kind template, in order.  Concatenated they give
exactly the body of the f-string printed for kind `t` (the braces of the Go
code are written with hexadecimal escapes). -/
def blockSegs (t : String) : List String :=
  ["\n// ", t, "Flag", " is the flag type that wraps cli.", t, "Flag",
   " to allow\n// for other values to be specified\n",
   "type ", t, "Flag", " struct",
   " \x7b\n\t*cli.", t, "Flag",
   "\n\tset *flag.FlagSet\n\x7d\nvar _ FlagInputSourceExtension = (*", t, "Flag",
   ")(nil)\n\n// ",
   "New", t, "Flag", " creates a new ", t, "Flag", "\n",
   "func ", "New", t, "Flag", "(", "fl *cli.", t, "Flag", ") *", t, "Flag",
   " \x7b\n\t",
   "return &", t, "Flag", "\x7b", t, "Flag", ": fl, set: nil\x7d",
   "\n\x7d\n\n// Apply saves the flagSet for later usage calls, then calls\n// the wrapped ",
   t, "Flag", ".Apply\n",
   "func (f *", t, "Flag",
   ") Apply(set *flag.FlagSet) error \x7b\n\tf.set = set\n\treturn f.",
   t, "Flag", ".Apply(set)\n\x7d"]

/-- Concatenation of a list of strings. -/
def scat : List String → String
  | [] => ""
  | s :: rest => s ++ scat rest

/-- The block printed for kind `t`: the template with `t` substituted. -/
def block (t : String) : String := scat (blockSegs t)

/-- One `print` call: appends the printed string and a newline to the output
stream buffer. -/
def printLine (buf s : String) : String := buf ++ (s ++ "\n")

/-- The whole script run against an initial output-stream buffer `buf`:
print the header, then print one block per kind, in list order. -/
def runFrom (buf : String) (kinds : List String) : String :=
  kinds.foldl (fun b t => printLine b (block t)) (printLine buf header)

/-- The script's standard output for kind list `kinds` (empty initial stream). -/
def generate (kinds : List String) : String := runFrom "" kinds

/-- Semantic model of the emitted wrapper type: the embedded wrapped flag and
the `set` slot holding an optional flag-set handle. -/
structure FlagWrap (F FS : Type) : Type where
  flag : F
  set : Option FS

/-- Semantic model of the emitted constructor `New{t}Flag`: wraps the given
flag, `set` slot left unset (`set: nil` in the template). -/
def NewFlag (F FS : Type) (fl : F) : FlagWrap F FS := ⟨fl, none⟩

/-- Semantic model of the emitted `Apply` method: store the handle in the
`set` slot (overwriting it), then delegate to the wrapped flag's own `Apply`
(given here as `innerApply`) and return its result unchanged. -/
def applyWrap {F FS E : Type} (innerApply : F → FS → Option E)
    (f : FlagWrap F FS) (s : FS) : FlagWrap F FS × Option E :=
  (⟨f.flag, some s⟩, innerApply f.flag s)

/-- One `print` call against an abstract output stream that can fail
(models an external write error); generation itself adds no failure. -/
def printE {E : Type} (emit : String → Except E Unit) (s : String) : Except E Unit :=
  emit (s ++ "\n")

/-- The whole script against a fallible output stream: write the header,
then one block per kind. -/
def runWith {E : Type} (emit : String → Except E Unit) (kinds : List String) :
    Except E Unit :=
  printE emit header >>= fun _ => kinds.forM fun t => printE emit (block t)

/-- Lexicographic comparison of char lists by code point. -/
def charListLt : List Char → List Char → Bool
  | [], [] => false
  | [], _ :: _ => true
  | _ :: _, [] => false
  | a :: as, b :: bs =>
    decide (a.toNat < b.toNat) || (decide (a.toNat = b.toNat) && charListLt as bs)

/-- Adjacent strict sortedness of a string list by code point. -/
def sortedByCode : List String → Bool
  | [] => true
  | [_] => true
  | a :: b :: rest => charListLt a.data b.data && sortedByCode (b :: rest)

/-- Boolean substring check on char lists. -/
def subChars (n : List Char) : List Char → Bool
  | [] => n.isEmpty
  | c :: t => n.isPrefixOf (c :: t) || subChars n t

theorem data_app (a b : String) : (a ++ b).data = a.data ++ b.data := rfl

theorem data_empty : ("" : String).data = ([] : List Char) := rfl

theorem str_ext {a b : String} (h : a.data = b.data) : a = b :=
  congrArg String.mk h

theorem app_assoc (a b c : String) : a ++ b ++ c = a ++ (b ++ c) :=
  str_ext (by simp [data_app, List.append_assoc])

theorem empty_app (a : String) : "" ++ a = a := rfl

theorem app_empty (a : String) : a ++ "" = a :=
  str_ext (by simp [data_app, data_empty])

theorem scat_append (xs ys : List String) : scat (xs ++ ys) = scat xs ++ scat ys := by
  induction xs with
  | nil => simp [scat, empty_app]
  | cons a xs ih => simp [scat, ih, app_assoc]

theorem scat_sub {xs ys : List String} (h : xs <:+: ys) :
    (scat xs).data <:+: (scat ys).data := by
  obtain ⟨u, v, huv⟩ := h
  refine ⟨(scat u).data, (scat v).data, ?_⟩
  rw [← huv, scat_append, scat_append]
  simp [data_app]

theorem foldl_printLine (b : String) (L : List String) :
    L.foldl (fun acc t => printLine acc (block t)) b
      = b ++ scat (L.map fun t => block t ++ "\n") := by
  induction L generalizing b with
  | nil => simp [scat, app_empty]
  | cons t L ih =>
    rw [List.foldl_cons, ih]
    simp [printLine, scat, app_assoc]

theorem runFrom_eq (b : String) (L : List String) :
    runFrom b L = b ++ ((header ++ "\n") ++ scat (L.map fun t => block t ++ "\n")) := by
  unfold runFrom
  rw [foldl_printLine]
  simp [printLine, app_assoc]

theorem generate_eq (L : List String) :
    generate L = (header ++ "\n") ++ scat (L.map fun t => block t ++ "\n") := by
  unfold generate
  rw [runFrom_eq]
  exact empty_app _

/-- Sanity check: the block assembled from the segments for kind `Bool` is
exactly the text the script prints for `Bool`. -/
theorem block_Bool_value :
    block ("Bool") =
      "\n// BoolFlag is the flag type that wraps cli.BoolFlag to allow\n// for other values to be specified\ntype BoolFlag struct \x7b\n\t*cli.BoolFlag\n\tset *flag.FlagSet\n\x7d\nvar _ FlagInputSourceExtension = (*BoolFlag)(nil)\n\n// NewBoolFlag creates a new BoolFlag\nfunc NewBoolFlag(fl *cli.BoolFlag) *BoolFlag \x7b\n\treturn &BoolFlag\x7bBoolFlag: fl, set: nil\x7d\n\x7d\n\n// Apply saves the flagSet for later usage calls, then calls\n// the wrapped BoolFlag.Apply\nfunc (f *BoolFlag) Apply(set *flag.FlagSet) error \x7b\n\tf.set = set\n\treturn f.BoolFlag.Apply(set)\n\x7d" := by
  rfl

/-- C1: for every non-empty kind list `L`, the output of `generate L` is the
header print followed by exactly one wrapper-type block per entry of `L`,
in the order of `L`, with no extraneous blocks and no reordering. -/
theorem generate_one_block_per_entry_in_order (L : List String) (h : L ≠ []) :
    generate L = (header ++ "\n") ++ scat (L.map fun t => block t ++ "\n")
      ∧ (L.map fun t => block t ++ "\n").length = L.length :=
  ⟨generate_eq L, by simp⟩

/-- Witness for C1 at the spec's scenario `generate(["Bool","Int"])`: the
header, then the `Bool` block, then immediately the `Int` block. -/
theorem generate_one_block_per_entry_in_order_witness :
    (["Bool", "Int"] : List String) ≠ []
      ∧ generate ["Bool", "Int"]
          = (header ++ "\n") ++ scat [block ("Bool") ++ "\n", block ("Int") ++ "\n"] :=
  ⟨by decide, (generate_one_block_per_entry_in_order ["Bool", "Int"] (by decide)).1⟩

/-- C2: the block emitted for any kind `K` contains the `Apply` method of
the wrapper type whose body first stores the handle in the wrapper's `set`
slot and then returns the wrapped flag's own `Apply` result; in the
semantic model of that method the stored handle overwrites any prior value
(last-write-wins) and the delegated result is propagated unchanged. -/
theorem apply_stores_then_delegates {F FS E : Type} (K : String)
    (innerApply : F → FS → Option E) (fl : F) (sPrev : Option FS) (s : FS) :
    ("func (f *" ++ (K ++ "Flag")
        ++ ") Apply(set *flag.FlagSet) error \x7b\n\tf.set = set\n\treturn f."
        ++ (K ++ "Flag") ++ ".Apply(set)\n\x7d").data <:+: (block K).data
      ∧ (applyWrap innerApply ⟨fl, sPrev⟩ s).1.set = some s
      ∧ (applyWrap innerApply ⟨fl, sPrev⟩ s).2 = innerApply fl s := by
  refine ⟨?_, rfl, rfl⟩
  have e : "func (f *" ++ (K ++ "Flag")
        ++ ") Apply(set *flag.FlagSet) error \x7b\n\tf.set = set\n\treturn f."
        ++ (K ++ "Flag") ++ ".Apply(set)\n\x7d"
      = scat ["func (f *", K, "Flag",
          ") Apply(set *flag.FlagSet) error \x7b\n\tf.set = set\n\treturn f.",
          K, "Flag", ".Apply(set)\n\x7d"] :=
    str_ext (by simp [scat, data_app, data_empty, List.append_assoc])
  rw [e]
  exact scat_sub ⟨(blockSegs K).take 48, (blockSegs K).drop 55, rfl⟩

/-- C3: for every kind list `L`, the output begins with the fixed
machine-generated do-not-edit line, and indeed with the whole fixed header
print (do-not-edit line, package clause, imports of the flag library and
of the cli library), before any per-kind block. -/
theorem output_begins_with_fixed_header (L : List String) :
    ("// Code generated by fg.py; DO NOT EDIT.\n").data <+: (generate L).data
      ∧ (header ++ "\n").data <+: (generate L).data := by
  have hsplit : header
      = "// Code generated by fg.py; DO NOT EDIT.\n"
        ++ "\npackage altsrc\n\nimport (\n\t\"flag\"\n\n\t\"github.com/urfave/cli/v2\"\n)" := rfl
  constructor
  · refine ⟨("\npackage altsrc\n\nimport (\n\t\"flag\"\n\n\t\"github.com/urfave/cli/v2\"\n)"
        ++ "\n" ++ scat (L.map fun t => block t ++ "\n")).data, ?_⟩
    rw [generate_eq L, hsplit]
    simp [data_app, List.append_assoc]
  · refine ⟨(scat (L.map fun t => block t ++ "\n")).data, ?_⟩
    rw [generate_eq L]
    simp [data_app]

/-- C4: the block emitted for any kind `K` declares the wrapper type under
exactly the name `K ++ "Flag"` and the constructor under exactly the name
`"New" ++ K ++ "Flag"`, the concatenation exact and case-preserving. -/
theorem emitted_names_exact_concatenation (K : String) :
    ("type " ++ (K ++ "Flag") ++ " struct").data <:+: (block K).data
      ∧ ("func " ++ ("New" ++ (K ++ "Flag")) ++ "(fl *cli." ++ (K ++ "Flag")
          ++ ") *" ++ (K ++ "Flag")).data <:+: (block K).data := by
  constructor
  · have e : "type " ++ (K ++ "Flag") ++ " struct"
        = scat ["type ", K, "Flag", " struct"] :=
      str_ext (by simp [scat, data_app, data_empty, List.append_assoc])
    rw [e]
    exact scat_sub ⟨(blockSegs K).take 7, (blockSegs K).drop 11, rfl⟩
  · have hpar : ("(fl *cli." : String).data
        = ("(" : String).data ++ ("fl *cli." : String).data := rfl
    have e : "func " ++ ("New" ++ (K ++ "Flag")) ++ "(fl *cli." ++ (K ++ "Flag")
          ++ ") *" ++ (K ++ "Flag")
        = scat ["func ", "New", K, "Flag", "(", "fl *cli.", K, "Flag", ") *", K, "Flag"] :=
      str_ext (by simp [scat, data_app, data_empty, hpar, List.append_assoc])
    rw [e]
    exact scat_sub ⟨(blockSegs K).take 25, (blockSegs K).drop 36, rfl⟩

/-- C5: the hard-coded kind list is exactly the nine names Bool, Duration,
Float64, Generic, Int, IntSlice, Path, String, StringSlice, and adjacent
entries are strictly increasing in code-point lexicographic (alphabetical)
order. -/
theorem flag_types_exact_and_sorted :
    flag_types
        = ["Bool", "Duration", "Float64", "Generic", "Int", "IntSlice", "Path",
           "String", "StringSlice"]
      ∧ sortedByCode flag_types = true :=
  ⟨rfl, by decide⟩

/-- C6: generation is deterministic with no hidden state: running the script
against any initial output-stream buffer appends exactly `generate L`, a
pure function of the kind list alone, so two runs on the same list emit
byte-identical documents. -/
theorem generate_deterministic (b : String) (L : List String) :
    runFrom b L = b ++ generate L := by
  rw [runFrom_eq, generate_eq]

/-- C7: the block emitted for any kind `K` contains the constructor body
wrapping the given already-constructed flag with the configuration-handle
slot explicitly nil; in the semantic model the constructor stores the
wrapped flag and leaves the handle slot unset. -/
theorem constructor_leaves_handle_unset (F FS : Type) (K : String) (fl : F) :
    ("return &" ++ (K ++ "Flag") ++ "\x7b" ++ (K ++ "Flag") ++ ": fl, set: nil\x7d").data
        <:+: (block K).data
      ∧ (NewFlag F FS fl).set = none ∧ (NewFlag F FS fl).flag = fl := by
  refine ⟨?_, rfl, rfl⟩
  have e : "return &" ++ (K ++ "Flag") ++ "\x7b" ++ (K ++ "Flag") ++ ": fl, set: nil\x7d"
      = scat ["return &", K, "Flag", "\x7b", K, "Flag", ": fl, set: nil\x7d"] :=
    str_ext (by simp [scat, data_app, data_empty, List.append_assoc])
  rw [e]
  exact scat_sub ⟨(blockSegs K).take 37, (blockSegs K).drop 44, rfl⟩

/-- C8: the generator validates nothing: any string `K`, malformed or not,
is not rejected but substituted verbatim into the output of `generate [K]`. -/
theorem no_validation_verbatim_substitution (K : String) :
    K.data <:+: (generate [K]).data := by
  have h1 : K.data <:+: (block K).data := by
    have h2 := scat_sub
      ((⟨(blockSegs K).take 1, (blockSegs K).drop 2, rfl⟩ : [K] <:+: blockSegs K))
    rwa [show scat [K] = K from app_empty K] at h2
  have hg : generate [K] = (header ++ "\n") ++ (block K ++ "\n") := by
    rw [generate_eq]
    exact congrArg (fun x => (header ++ "\n") ++ x) (app_empty (block K ++ "\n"))
  obtain ⟨u, v, huv⟩ := h1
  refine ⟨(header ++ "\n").data ++ u, v ++ ("\n" : String).data, ?_⟩
  rw [hg]
  simp [data_app, ← huv, List.append_assoc]

/-- C9: generation cannot fail: run against an abstract fallible output
stream, the script succeeds whenever every write succeeds — any failure
comes from the external stream, none from the generation logic. -/
theorem generation_cannot_fail {E : Type} (emit : String → Except E Unit)
    (L : List String) (h : ∀ s, emit s = Except.ok ()) :
    runWith emit L = Except.ok () := by
  have hf : ∀ M : List String,
      (M.forM fun t => printE emit (block t)) = Except.ok () := by
    intro M
    induction M with
    | nil => rfl
    | cons t M ih =>
      have hb : printE emit (block t) = Except.ok () := h ((block t) ++ "\n")
      show (printE emit (block t) >>= fun _ => M.forM fun x => printE emit (block x))
          = Except.ok ()
      rw [hb]
      exact ih
  have hh : printE emit header = Except.ok () := h (header ++ "\n")
  show (printE emit header >>= fun _ => L.forM fun t => printE emit (block t))
      = Except.ok ()
  rw [hh]
  exact hf L

/-- Witness for C9: with a never-failing stream the script run on the
hard-coded kind list succeeds. -/
theorem generation_cannot_fail_witness :
    runWith (fun _ : String => (Except.ok () : Except Unit Unit)) flag_types
      = Except.ok () :=
  generation_cannot_fail (fun _ : String => (Except.ok () : Except Unit Unit))
    flag_types (fun _ => rfl)

/-- C10: on the empty kind list the script emits exactly the header print
and nothing else: no per-kind block (for each of the nine kinds, the text
declaring its wrapper type is absent from the output) and no error. -/
theorem generate_empty_header_only :
    generate [] = header ++ "\n"
      ∧ (flag_types.all fun K =>
          !subChars (("type " ++ K ++ "Flag struct").data) ((generate []).data)) = true := by
  constructor
  · rw [generate_eq]
    exact app_empty _
  · decide

end FlagGen
